import Mathlib

/-!
Verification of `src/ibWrapper.py` (class `IBWrapper`), a thin adapter around
the Interactive Brokers client library.

The shallow embedding below translates the Python source:
* the mutable session state of an `IBWrapper` instance becomes `IBState`;
* each message handler becomes a function `IBState → String → HRes`, where a
  message is represented by its textual form (`str(msg)`), `HRes.res` records
  whether the handler returned normally or raised a Python exception,
  `HRes.st` is the state left behind, and `HRes.logs` the emitted log records;
* the builder methods `create_contract` / `create_order` become state-passing
  functions returning the built descriptor together with the (unchanged) state;
* Python's `re.search` is modelled faithfully: the two simple patterns
  `orderId=(\d+)` and `accountsList=(\w+)` by a direct leftmost-match scanner
  (`scanLit`), and the error pattern `<.*errorCode=(.*),\serrorMsg=(.*)>` by a
  small greedy backtracking regex engine (`matchF` / `reSearch`).
-/

/-- One character of Python's `\w` class for ASCII `str` patterns:
`[a-zA-Z0-9_]`. -/
def wordChar (c : Char) : Bool :=
  c.isAlphanum || c = '_'

/-- One character of Python's `\s` class for ASCII `str` patterns:
space, tab, newline, carriage return, vertical tab, form feed. -/
def spaceChar (c : Char) : Bool :=
  c = ' ' || c = '\t' || c = '\n' || c = '\r' || c = '\x0b' || c = '\x0c'

/-- Python's `.` in a regex without `re.DOTALL`: any character but newline. -/
def dotChar (c : Char) : Bool :=
  c ≠ '\n'

/-- Does the list start with a character satisfying `p`? -/
def headSat (p : Char → Bool) : List Char → Bool
  | [] => false
  | c :: _ => p c

/-- Model of `re.search` for a pattern of the shape `lit(cls+)` (a literal
followed by one captured, greedily matched character class), as used by
`orderId=(\d+)` and `accountsList=(\w+)` in the source: scan left to right
for the first position where the literal occurs immediately followed by at
least one `p`-character, and return the maximal run of `p`-characters after
the literal (the capture group). Returns `none` when no position matches. -/
def scanLit (pat : List Char) (p : Char → Bool) : List Char → Option (List Char)
  | [] => none
  | c :: s =>
      if pat.isPrefixOf (c :: s) && headSat p (List.drop pat.length (c :: s)) then
        some (List.takeWhile p (List.drop pat.length (c :: s)))
      else scanLit pat p s

/-- Python `int` applied to a nonempty string of decimal digits. -/
def natOfDigits (l : List Char) : Nat :=
  l.foldl (fun a c => 10 * a + (c.toNat - 48)) 0

/-- `re.search(r'orderId=(\d+)', s)` followed by `int` on group 1
(`next_valid_id_handler`, line 80-82 of the source). -/
def searchOrderId (s : List Char) : Option Nat :=
  (scanLit "orderId=".data Char.isDigit s).map natOfDigits

/-- `re.search(r'accountsList=(\w+)', s)`, group 1
(`managed_account_handler`, line 68 of the source). -/
def searchAccountsList (s : List Char) : Option String :=
  (scanLit "accountsList=".data wordChar s).map String.mk

/-- Element of a regex pattern, covering the constructs used by
`error_handler`'s pattern `<.*errorCode=(.*),\serrorMsg=(.*)>`: literal
characters, single-character classes, greedy uncaptured star over a class,
and greedy captured star over a class. -/
inductive RElem where
  | lit : Char → RElem
  | cls : (Char → Bool) → RElem
  | star : (Char → Bool) → RElem
  | grpStar : (Char → Bool) → RElem

/-- Fuel-indexed backtracking matcher with Python `re` semantics: a pattern
matches a prefix of the input (trailing characters ignored), `star`/`grpStar`
are greedy (longest first, backtracking on failure of the rest), captures are
returned left to right. Every recursive call either shortens the pattern or
shortens the input, so a fuel of `pat.length + s.length + 1` can never run
out; the `0`-fuel branch is unreachable for the fuel supplied by `reMatch`. -/
def matchF : Nat → List RElem → List Char → Option (List (List Char))
  | 0, _, _ => none
  | _ + 1, [], _ => some []
  | fuel + 1, .lit c :: ps, s =>
      match s with
      | [] => none
      | d :: s' => if d = c then matchF fuel ps s' else none
  | fuel + 1, .cls p :: ps, s =>
      match s with
      | [] => none
      | d :: s' => if p d then matchF fuel ps s' else none
  | fuel + 1, .star p :: ps, s =>
      match s with
      | [] => matchF fuel ps []
      | d :: s' =>
          if p d then
            match matchF fuel (.star p :: ps) s' with
            | some caps => some caps
            | none => matchF fuel ps (d :: s')
          else matchF fuel ps (d :: s')
  | fuel + 1, .grpStar p :: ps, s =>
      match s with
      | [] => (matchF fuel ps []).map (fun caps => [] :: caps)
      | d :: s' =>
          if p d then
            match matchF fuel (.grpStar p :: ps) s' with
            | some (cap :: caps) => some ((d :: cap) :: caps)
            | some [] => none
            | none => (matchF fuel ps (d :: s')).map (fun caps => [] :: caps)
          else (matchF fuel ps (d :: s')).map (fun caps => [] :: caps)

/-- Match `pat` at the start of `s` (with always-sufficient fuel). -/
def reMatch (pat : List RElem) (s : List Char) : Option (List (List Char)) :=
  matchF (pat.length + s.length + 1) pat s

/-- `re.search`: try the pattern at every position, leftmost first. -/
def reSearchFrom (pat : List RElem) : List Char → Option (List (List Char))
  | [] => reMatch pat []
  | c :: s =>
      match reMatch pat (c :: s) with
      | some caps => some caps
      | none => reSearchFrom pat s

/-- A literal string as a sequence of pattern elements. -/
def litElems (t : String) : List RElem :=
  t.data.map RElem.lit

/-- The pattern `<.*errorCode=(.*),\serrorMsg=(.*)>` of `error_handler`
(line 89 of the source). -/
def errPat : List RElem :=
  [RElem.lit '<', RElem.star dotChar] ++ litElems "errorCode=" ++
    [RElem.grpStar dotChar, RElem.lit ',', RElem.cls spaceChar] ++ litElems "errorMsg=" ++
    [RElem.grpStar dotChar, RElem.lit '>']

/-- `re.search(r'<.*errorCode=(.*),\serrorMsg=(.*)>', s)`, returning
(group 1, group 2) on a match. -/
def errSearch (s : String) : Option (String × String) :=
  match reSearchFrom errPat s.data with
  | some [c, m] => some (String.mk c, String.mk m)
  | _ => none

/-- Python `str.startswith`: is `pre` a prefix of `s`? -/
def pyStartsWith (s pre : String) : Bool :=
  pre.data.isPrefixOf s.data

/-- Python 2 `str.lower()`: lowercase each character (ASCII). -/
def pyLower (s : String) : String :=
  String.mk (s.data.map Char.toLower)

/-- Attribute set of one symbol in `conf/ibsymbols.json`: attribute name to
value (values read through Python `str`). -/
abbrev AttrMap := List (String × String)

/-- The symbol map loaded in `__init__`: security type, to symbol, to
attributes. JSON objects have unique keys, so an association list with
`List.lookup` models Python dict membership and indexing. -/
abbrev SymbolMap := List (String × List (String × AttrMap))

/-- The mutable per-instance state of an `IBWrapper`: the class attributes
`nextOrderId` and `account_id` (lines 15-16) and the instance attributes set
in `__init__` (lines 36-39 and 53-54). `uilogger` records whether the
optional secondary sink was supplied. The connection object itself is the
out-of-scope transport collaborator. -/
structure IBState where
  con_str : String
  sig_multiplier : Int
  uilogger : Bool
  nextOrderId : Nat
  account_id : Option String
  symbol_map : SymbolMap
deriving DecidableEq

/-- Construction of the adapter (`IBWrapper.__init__`): `con_str` is
`ip + ":" + str(port)`; `nextOrderId` and `account_id` keep their class-level
initial values `0` and `None`; the symbol map is the parsed contents of
`conf/ibsymbols.json` (passed in here, since file IO is outside the
embedding). `client_id` is only forwarded to the transport. -/
def mkIBWrapper (ip : String) (port : Nat) (client_id : Nat) (sig_multiplier : Int)
    (uilogger : Bool) (symbolMapContents : SymbolMap) : IBState :=
  { con_str := ip ++ ":" ++ toString port
    sig_multiplier := sig_multiplier
    uilogger := uilogger
    nextOrderId := 0
    account_id := none
    symbol_map := symbolMapContents }

/-- Log level used by the source (only `info` and `error` appear). -/
inductive LogLevel where
  | info
  | error
deriving DecidableEq

/-- Destination of a log record: the rotating-file logger, or the optional
caller-supplied `uilogger`. -/
inductive LogSink where
  | file
  | ui
deriving DecidableEq

/-- One emitted log record. -/
structure LogEvent where
  level : LogLevel
  sink : LogSink
  message : String
deriving DecidableEq

/-- A raised Python exception, by type and message. -/
inductive PyExn where
  | valueError : String → PyExn
  | typeError : String → PyExn
deriving DecidableEq

/-- Result of one handler invocation: normal return or raised exception,
the state left behind, and the log records emitted (in order). -/
structure HRes where
  res : Except PyExn Unit
  st : IBState
  logs : List LogEvent

/-- `log_all` (lines 156-164): log to the file logger, and mirror to the
`uilogger` when one was supplied; level `'info'` selects info, anything else
selects error. Returns the records emitted. -/
def log_all (st : IBState) (message : String) (level : String) : List LogEvent :=
  if level = "info" then
    ⟨.info, .file, message⟩ :: (if st.uilogger then [⟨.info, .ui, message⟩] else [])
  else
    ⟨.error, .file, message⟩ :: (if st.uilogger then [⟨.error, .ui, message⟩] else [])

/-- `my_account_handler` (lines 63-64): logs the message verbatim. -/
def my_account_handler (st : IBState) (msg : String) : HRes :=
  { res := .ok (), st := st, logs := [⟨.info, .file, msg⟩] }

/-- `managed_account_handler` (lines 66-73): extract the account id with
`re.search(r'accountsList=(\w+)', str(msg))`; on a match store it and log
`"IB account: %s"`; otherwise raise
`ValueError("No account id found in msg: " + msg)`. -/
def managed_account_handler (st : IBState) (msg : String) : HRes :=
  match searchAccountsList msg.data with
  | some tok =>
      { res := .ok ()
        st := { st with account_id := some tok }
        logs := [⟨.info, .file, "IB account: " ++ tok⟩] }
  | none =>
      { res := .error (.valueError ("No account id found in msg: " ++ msg))
        st := st, logs := [] }

/-- `next_valid_id_handler` (lines 78-85): extract the order id with
`re.search(r'orderId=(\d+)', str(msg))`; on a match store `int(group 1)` and
log `"next valid id: %d"`; otherwise raise
`ValueError("No next valid id found in msg: " + msg)`. -/
def next_valid_id_handler (st : IBState) (msg : String) : HRes :=
  match searchOrderId msg.data with
  | some n =>
      { res := .ok ()
        st := { st with nextOrderId := n }
        logs := [⟨.info, .file, "next valid id: " ++ toString n⟩] }
  | none =>
      { res := .error (.valueError ("No next valid id found in msg: " ++ msg))
        st := st, logs := [] }

/-- `error_handler` (lines 87-97): extract `errorCode` and `errorMsg` with
`re.search(r'<.*errorCode=(.*),\serrorMsg=(.*)>', str(msg))`. On a match, log
`"IB Error [code: %s, message: %s]"`; when the code is the text `"None"` and
the message starts with `"unpack requires a string"`, additionally call
`log_all("IB account " + self.account_id + " was shutdown!", 'error')` —
which in Python raises a `TypeError` if `account_id` is still `None`. With no
match, log `"IB Error: %s" % msg`. -/
def error_handler (st : IBState) (msg : String) : HRes :=
  match errSearch msg with
  | some (err_code, err_msg) =>
      let l1 : LogEvent :=
        ⟨.error, .file, "IB Error [code: " ++ err_code ++ ", message: " ++ err_msg ++ "]"⟩
      if err_code = "None" ∧ pyStartsWith err_msg "unpack requires a string" = true then
        match st.account_id with
        | some acct =>
            { res := .ok (), st := st
              logs := l1 :: log_all st ("IB account " ++ acct ++ " was shutdown!") "error" }
        | none =>
            { res := .error (.typeError "cannot concatenate str and NoneType objects")
              st := st, logs := [l1] }
      else { res := .ok (), st := st, logs := [l1] }
  | none =>
      { res := .ok (), st := st, logs := [⟨.error, .file, "IB Error: " ++ msg⟩] }

/-- A contract descriptor (`ib.ext.Contract`), restricted to the five fields
`create_contract` assigns. -/
structure Contract where
  m_symbol : String
  m_secType : String
  m_exchange : String
  m_primaryExch : String
  m_currency : String
deriving DecidableEq

/-- An order descriptor (`ib.ext.Order`), restricted to the three fields
`create_order` assigns. `quantity` is untyped in Python; the spec calls it an
integer, so it is embedded as `Int` (negative values included). -/
structure Order where
  m_orderType : String
  m_totalQuantity : Int
  m_action : String
deriving DecidableEq

/-- `create_contract` (lines 103-131): lowercase `sec_type` and `symbol`;
when the symbol map has a `prim_exch` attribute for the pair, replace the
caller-supplied `prim_exch`; build the contract. In the source the method
reads `self.symbol_map` and assigns nothing to `self`, so the state-passing
translation returns the state unchanged. The Python defaults are
`exch='SMART'`, `prim_exch='SMART'`, `curr='USD'`. -/
def create_contract (st : IBState) (symbol sec_type exch prim_exch curr : String) :
    Contract × IBState :=
  let sec_type := pyLower sec_type
  let symbol := pyLower symbol
  let prim_exch :=
    match st.symbol_map.lookup sec_type with
    | some symMap =>
        match symMap.lookup symbol with
        | some attrs =>
            match attrs.lookup "prim_exch" with
            | some v => v
            | none => prim_exch
        | none => prim_exch
    | none => prim_exch
  ({ m_symbol := symbol, m_secType := sec_type, m_exchange := exch,
     m_primaryExch := prim_exch, m_currency := curr }, st)

/-- `create_order` (lines 133-144): assign the three arguments to the order
fields, with no validation and no state access. -/
def create_order (st : IBState) (order_type : String) (quantity : Int) (action : String) :
    Order × IBState :=
  ({ m_orderType := order_type, m_totalQuantity := quantity, m_action := action }, st)

/-!  Helper lemmas  -/

/-- `List.isPrefixOf` expressed as an explicit decomposition. -/
theorem isPrefixOf_eq_true_iff (l1 l2 : List Char) :
    l1.isPrefixOf l2 = true ↔ ∃ t, l2 = l1 ++ t := by
  induction l1 generalizing l2 with
  | nil => simp [List.isPrefixOf]
  | cons a as ih =>
      cases l2 with
      | nil => simp [List.isPrefixOf]
      | cons b bs =>
          simp only [List.isPrefixOf, Bool.and_eq_true_iff, beq_iff_eq, ih,
            List.cons_append, List.cons.injEq]
          constructor
          · rintro ⟨rfl, t, rfl⟩
            exact ⟨t, rfl, rfl⟩
          · rintro ⟨t, rfl, rfl⟩
            exact ⟨rfl, t, rfl⟩

/-- `scanLit` succeeds exactly when the text contains the literal followed by
at least one character of the class: the textual-containment reading of the
patterns `orderId=(\\d+)` and `accountsList=(\\w+)`. -/
theorem scanLit_isSome_iff (pat : List Char) (p : Char → Bool) (s : List Char) :
    (scanLit pat p s).isSome = true ↔
      ∃ pre d rest, s = pre ++ pat ++ d :: rest ∧ p d = true := by
  induction s with
  | nil =>
      simp only [scanLit, Option.isSome_none, Bool.false_eq_true, false_iff]
      rintro ⟨pre, d, rest, h, -⟩
      exact absurd (List.append_eq_nil.mp h.symm).2 (List.cons_ne_nil d rest)
  | cons c s ih =>
      cases hcond : pat.isPrefixOf (c :: s) && headSat p (List.drop pat.length (c :: s)) with
      | true =>
          simp only [scanLit, hcond, if_true, Option.isSome_some, true_iff]
          obtain ⟨hpre, hhead⟩ := Bool.and_eq_true_iff.mp hcond
          obtain ⟨t, ht⟩ := (isPrefixOf_eq_true_iff pat (c :: s)).mp hpre
          have hdrop : List.drop pat.length (c :: s) = t := by
            rw [ht]; exact List.drop_left pat t
          rw [hdrop] at hhead
          cases t with
          | nil => exact absurd hhead (by simp [headSat])
          | cons d rest =>
              exact ⟨[], d, rest, by simpa using ht, hhead⟩
      | false =>
          have hstep : scanLit pat p (c :: s) = scanLit pat p s := by
            simp [scanLit, hcond]
          rw [hstep, ih]
          constructor
          · rintro ⟨pre, d, rest, hs, hd⟩
            exact ⟨c :: pre, d, rest, by simp [hs], hd⟩
          · rintro ⟨pre, d, rest, hs, hd⟩
            cases pre with
            | nil =>
                exfalso
                simp only [List.nil_append] at hs
                have hpre : pat.isPrefixOf (c :: s) = true :=
                  (isPrefixOf_eq_true_iff pat (c :: s)).mpr ⟨d :: rest, hs⟩
                have hdrop : List.drop pat.length (c :: s) = d :: rest := by
                  rw [hs]; exact List.drop_left pat (d :: rest)
                have hcontra : (pat.isPrefixOf (c :: s)
                    && headSat p (List.drop pat.length (c :: s))) = true := by
                  rw [hpre, hdrop]
                  simp [headSat, hd]
                rw [hcond] at hcontra
                exact Bool.false_ne_true hcontra
            | cons c2 pre2 =>
                have hc : c = c2 ∧ s = pre2 ++ pat ++ d :: rest := by
                  simp only [List.cons_append, List.cons.injEq] at hs
                  exact hs
                exact ⟨pre2, d, rest, hc.2, hd⟩

/-- A concrete state used by concrete parts of the claims: symbol map with
the single entry `stk.gld.prim_exch = "ARCA"`, no `uilogger`. -/
def gldState : IBState :=
  { con_str := "localhost:7496"
    sig_multiplier := 1
    uilogger := false
    nextOrderId := 0
    account_id := none
    symbol_map := [("stk", [("gld", [("prim_exch", "ARCA")])])] }

/-!  Claims  -/

/-- Claim C1: when the lowercased (security type, symbol) pair is in the
symbol map with a `prim_exch` attribute, `create_contract` returns that
override as the primary exchange, whatever `prim_exch` the caller supplied;
when the lowercased security type or symbol is absent from the map, the
caller-supplied `prim_exch` is returned unchanged. -/
theorem create_contract_prim_exch_spec (st : IBState)
    (symbol sec_type exch prim_exch curr : String) :
    (∀ symMap attrs v,
      st.symbol_map.lookup (pyLower sec_type) = some symMap →
      symMap.lookup (pyLower symbol) = some attrs →
      attrs.lookup "prim_exch" = some v →
      (create_contract st symbol sec_type exch prim_exch curr).1.m_primaryExch = v)
    ∧ ((st.symbol_map.lookup (pyLower sec_type) = none ∨
        (∃ symMap, st.symbol_map.lookup (pyLower sec_type) = some symMap ∧
          symMap.lookup (pyLower symbol) = none)) →
      (create_contract st symbol sec_type exch prim_exch curr).1.m_primaryExch
        = prim_exch) := by
  constructor
  · intro symMap attrs v h1 h2 h3
    simp [create_contract, h1, h2, h3]
  · rintro (h1 | ⟨symMap, h1, h2⟩)
    · simp [create_contract, h1]
    · simp [create_contract, h1, h2]

/-- Closed instance of `create_contract_prim_exch_spec`: with the map entry
`stk.gld.prim_exch = "ARCA"` the override wins over the caller-supplied
`"NYSE"`; with an empty map the caller-supplied `"NYSE"` survives. -/
theorem create_contract_prim_exch_spec_witness :
    (create_contract gldState "GLD" "STK" "SMART" "NYSE" "USD").1.m_primaryExch = "ARCA"
    ∧ (create_contract { gldState with symbol_map := [] }
        "GLD" "STK" "SMART" "NYSE" "USD").1.m_primaryExch = "NYSE" :=
  ⟨(create_contract_prim_exch_spec gldState "GLD" "STK" "SMART" "NYSE" "USD").1
      [("gld", [("prim_exch", "ARCA")])] [("prim_exch", "ARCA")] "ARCA"
      (by decide) (by decide) (by decide),
    (create_contract_prim_exch_spec { gldState with symbol_map := [] }
      "GLD" "STK" "SMART" "NYSE" "USD").2 (Or.inl (by decide))⟩

/-- Claim C2: `create_contract` lowercases the symbol and the security type
for every input casing; in particular `("GLD", "STK")` against the map entry
`stk.gld.prim_exch = "ARCA"` yields symbol `"gld"`, security type `"stk"`
and primary exchange `"ARCA"`. -/
theorem create_contract_lowercase_spec (st : IBState)
    (symbol sec_type exch prim_exch curr : String) :
    (create_contract st symbol sec_type exch prim_exch curr).1.m_symbol = pyLower symbol
    ∧ (create_contract st symbol sec_type exch prim_exch curr).1.m_secType = pyLower sec_type
    ∧ create_contract gldState "GLD" "STK" "SMART" "SMART" "USD"
        = ({ m_symbol := "gld", m_secType := "stk", m_exchange := "SMART",
             m_primaryExch := "ARCA", m_currency := "USD" }, gldState) := by
  refine ⟨?_, ?_, by decide⟩
  · simp [create_contract]
  · simp [create_contract]

/-- Claim C8: the builders are deterministic and side-effect-free: two
`create_contract` calls with identical arguments agree on every contract
field, and neither `create_contract` nor `create_order` changes any state
component (in particular not the symbol map). -/
theorem create_contract_pure_spec (st : IBState)
    (symbol sec_type exch prim_exch curr order_type action : String) (quantity : Int) :
    ((create_contract st symbol sec_type exch prim_exch curr).1.m_symbol
        = (create_contract st symbol sec_type exch prim_exch curr).1.m_symbol
      ∧ (create_contract st symbol sec_type exch prim_exch curr).1.m_secType
        = (create_contract st symbol sec_type exch prim_exch curr).1.m_secType
      ∧ (create_contract st symbol sec_type exch prim_exch curr).1.m_exchange
        = (create_contract st symbol sec_type exch prim_exch curr).1.m_exchange
      ∧ (create_contract st symbol sec_type exch prim_exch curr).1.m_primaryExch
        = (create_contract st symbol sec_type exch prim_exch curr).1.m_primaryExch
      ∧ (create_contract st symbol sec_type exch prim_exch curr).1.m_currency
        = (create_contract st symbol sec_type exch prim_exch curr).1.m_currency)
    ∧ (create_contract st symbol sec_type exch prim_exch curr).2 = st
    ∧ (create_order st order_type quantity action).2 = st
    ∧ (create_contract st symbol sec_type exch prim_exch curr).2.symbol_map
        = st.symbol_map :=
  ⟨⟨rfl, rfl, rfl, rfl, rfl⟩, rfl, rfl, rfl⟩

/-- Claim C9: `create_order` copies its three arguments into the order fields
for every order type, quantity (negative included) and action, with no
validation: it is a total function and never fails. -/
theorem create_order_no_validation_spec (st : IBState)
    (order_type : String) (quantity : Int) (action : String) :
    (create_order st order_type quantity action).1.m_orderType = order_type
    ∧ (create_order st order_type quantity action).1.m_totalQuantity = quantity
    ∧ (create_order st order_type quantity action).1.m_action = action :=
  ⟨rfl, rfl, rfl⟩

/-- Claim C10: immediately after construction, before any handler ran,
`nextOrderId` is `0` and `account_id` is `None`, for every constructor
argument; a caller reading the next order id before a `NextValidId` message
arrives observes `0`. -/
theorem initial_state_spec (ip : String) (port client_id : Nat) (sig_multiplier : Int)
    (uilogger : Bool) (symbolMapContents : SymbolMap) :
    (mkIBWrapper ip port client_id sig_multiplier uilogger symbolMapContents).nextOrderId = 0
    ∧ (mkIBWrapper ip port client_id sig_multiplier uilogger
        symbolMapContents).account_id = none :=
  ⟨rfl, rfl⟩

/-- Claim C3: when the message text contains `orderId=` followed by at least
one digit, `next_valid_id_handler` returns normally, stores the extracted
integer (the first match's maximal digit run) in `nextOrderId` and logs it;
when the text contains no such pattern it raises a `ValueError` and leaves
the state, `nextOrderId` included, unchanged. -/
theorem next_valid_id_handler_spec (st : IBState) (msg : String) :
    ((searchOrderId msg.data).isSome = true ↔
      ∃ pre d rest, msg.data = pre ++ "orderId=".data ++ d :: rest ∧ d.isDigit = true)
    ∧ (∀ n, searchOrderId msg.data = some n →
        next_valid_id_handler st msg =
          { res := .ok (), st := { st with nextOrderId := n },
            logs := [⟨.info, .file, "next valid id: " ++ toString n⟩] })
    ∧ (searchOrderId msg.data = none →
        next_valid_id_handler st msg =
          { res := .error (.valueError ("No next valid id found in msg: " ++ msg)),
            st := st, logs := [] }) := by
  refine ⟨?_, ?_, ?_⟩
  · rw [← scanLit_isSome_iff "orderId=".data Char.isDigit msg.data]
    unfold searchOrderId
    cases scanLit "orderId=".data Char.isDigit msg.data <;> simp
  · intro n h
    simp [next_valid_id_handler, h]
  · intro h
    simp [next_valid_id_handler, h]

/-- Closed instance of `next_valid_id_handler_spec`: `orderId=42` stores
`42`; a message with no `orderId=` digits pattern raises and keeps the
state. -/
theorem next_valid_id_handler_spec_witness :
    next_valid_id_handler gldState "<nextValidId orderId=42>" =
      { res := .ok (), st := { gldState with nextOrderId := 42 },
        logs := [⟨.info, .file, "next valid id: 42"⟩] }
    ∧ next_valid_id_handler gldState "no id here" =
      { res := .error (.valueError "No next valid id found in msg: no id here"),
        st := gldState, logs := [] } := by
  constructor
  · have h := (next_valid_id_handler_spec gldState "<nextValidId orderId=42>").2.1 42
      (by decide)
    simpa using h
  · exact (next_valid_id_handler_spec gldState "no id here").2.2 (by decide)

/-- Claim C4: when the message text contains `accountsList=` followed by at
least one word character, `managed_account_handler` returns normally, stores
the extracted token (the first match's maximal word run) as the account id
and logs it; when the text contains no such pattern it raises a `ValueError`
carrying the raw message and leaves the state, the account id included,
unchanged. -/
theorem managed_account_handler_spec (st : IBState) (msg : String) :
    ((searchAccountsList msg.data).isSome = true ↔
      ∃ pre d rest, msg.data = pre ++ "accountsList=".data ++ d :: rest
        ∧ wordChar d = true)
    ∧ (∀ tok, searchAccountsList msg.data = some tok →
        managed_account_handler st msg =
          { res := .ok (), st := { st with account_id := some tok },
            logs := [⟨.info, .file, "IB account: " ++ tok⟩] })
    ∧ (searchAccountsList msg.data = none →
        managed_account_handler st msg =
          { res := .error (.valueError ("No account id found in msg: " ++ msg)),
            st := st, logs := [] }) := by
  refine ⟨?_, ?_, ?_⟩
  · rw [← scanLit_isSome_iff "accountsList=".data wordChar msg.data]
    unfold searchAccountsList
    cases scanLit "accountsList=".data wordChar msg.data <;> simp
  · intro tok h
    simp [managed_account_handler, h]
  · intro h
    simp [managed_account_handler, h]

/-- Closed instance of `managed_account_handler_spec`: `accountsList=U123456`
stores `"U123456"`; a message without the pattern raises a `ValueError`
carrying the raw message and keeps the state. -/
theorem managed_account_handler_spec_witness :
    managed_account_handler gldState "<managedAccounts accountsList=U123456>" =
      { res := .ok (), st := { gldState with account_id := some "U123456" },
        logs := [⟨.info, .file, "IB account: U123456"⟩] }
    ∧ managed_account_handler gldState "hello" =
      { res := .error (.valueError "No account id found in msg: hello"),
        st := gldState, logs := [] } := by
  constructor
  · have h := (managed_account_handler_spec gldState
      "<managedAccounts accountsList=U123456>").2.1 "U123456" (by decide)
    simpa using h
  · exact (managed_account_handler_spec gldState "hello").2.2 (by decide)

/-- Claim C5: when the bracketed pattern matches with code `201` and message
`Order rejected`, `error_handler` logs them at error level and returns
normally; when the pattern does not match at all, it logs the raw message at
error level and returns normally; the state is untouched either way. -/
theorem error_handler_parse_spec (st : IBState) (msg : String) :
    (errSearch msg = some ("201", "Order rejected") →
      error_handler st msg =
        { res := .ok (), st := st,
          logs := [⟨.error, .file, "IB Error [code: 201, message: Order rejected]"⟩] })
    ∧ (errSearch msg = none →
      error_handler st msg =
        { res := .ok (), st := st,
          logs := [⟨.error, .file, "IB Error: " ++ msg⟩] }) := by
  constructor
  · intro h
    simp only [error_handler, h]
    rw [if_neg (by decide)]
    rfl
  · intro h
    simp [error_handler, h]

/-- Closed instance of `error_handler_parse_spec` at the message
`<error id=-1, errorCode=201, errorMsg=Order rejected>` and at the
unparseable message `totally broken`. -/
theorem error_handler_parse_spec_witness :
    error_handler gldState "<error id=-1, errorCode=201, errorMsg=Order rejected>" =
      { res := .ok (), st := gldState,
        logs := [⟨.error, .file, "IB Error [code: 201, message: Order rejected]"⟩] }
    ∧ error_handler gldState "totally broken" =
      { res := .ok (), st := gldState,
        logs := [⟨.error, .file, "IB Error: totally broken"⟩] } := by
  constructor
  · exact (error_handler_parse_spec gldState
      "<error id=-1, errorCode=201, errorMsg=Order rejected>").1 (by decide)
  · have h := (error_handler_parse_spec gldState "totally broken").2 (by decide)
    simpa using h

/-- Claim C6: when the account id has been set before `error_handler` runs,
no code path of the handler raises; in the special branch (code text `None`,
message starting with `unpack requires a string`) it logs the gateway error
and then emits, through the dual-sink `log_all`, the shutdown message that
references the account id. -/
theorem error_handler_account_safety (st : IBState) (msg : String) (a : String)
    (hacct : st.account_id = some a) :
    (error_handler st msg).res = .ok ()
    ∧ (∀ code m, errSearch msg = some (code, m) → code = "None" →
        pyStartsWith m "unpack requires a string" = true →
        (error_handler st msg).logs =
          ⟨.error, .file, "IB Error [code: " ++ code ++ ", message: " ++ m ++ "]"⟩ ::
            log_all st ("IB account " ++ a ++ " was shutdown!") "error") := by
  constructor
  · cases herr : errSearch msg with
    | none => simp [error_handler, herr]
    | some cm =>
        obtain ⟨code, m⟩ := cm
        by_cases hcond : code = "None" ∧ pyStartsWith m "unpack requires a string" = true
        · simp [error_handler, herr, hcond, hacct]
        · simp [error_handler, herr, hcond]
  · intro code m herr hcode hm
    simp [error_handler, herr, hcode, hm, hacct]

/-- Closed instance of `error_handler_account_safety`: with the account id
set to `U1`, the shutdown-heuristic message is handled without raising and
the shutdown log referencing `U1` is emitted after the error log. -/
theorem error_handler_account_safety_witness :
    (error_handler { gldState with account_id := some "U1" }
      "<error id=None, errorCode=None, errorMsg=unpack requires a string of length 16>").res
      = .ok ()
    ∧ (error_handler { gldState with account_id := some "U1" }
        "<error id=None, errorCode=None, errorMsg=unpack requires a string of length 16>").logs
      = [⟨.error, .file,
            "IB Error [code: None, message: unpack requires a string of length 16]"⟩,
          ⟨.error, .file, "IB account U1 was shutdown!"⟩] := by
  constructor
  · exact (error_handler_account_safety { gldState with account_id := some "U1" }
      "<error id=None, errorCode=None, errorMsg=unpack requires a string of length 16>"
      "U1" rfl).1
  · have h := (error_handler_account_safety { gldState with account_id := some "U1" }
      "<error id=None, errorCode=None, errorMsg=unpack requires a string of length 16>"
      "U1" rfl).2 "None" "unpack requires a string of length 16" (by decide) rfl (by decide)
    rw [h]
    decide

/-- Claim C7 is refuted on the code: `next_valid_id_handler` overwrites
`nextOrderId` with the extracted value, so a message carrying a smaller id
strictly decreases it (here from `5` to `3`). -/
theorem nextOrderId_monotonicity_counterexample :
    ¬ ((next_valid_id_handler { gldState with nextOrderId := 5 }
          "<nextValidId orderId=3>").st.nextOrderId
        ≥ ({ gldState with nextOrderId := 5 } : IBState).nextOrderId) := by
  decide

/-- Claim C7, amended: `nextOrderId` is updated only by
`next_valid_id_handler`, which overwrites it with the extracted integer (not
necessarily larger than the previous value); on a parse failure, and under
every other registered handler, it is unchanged. -/
theorem nextOrderId_update_spec (st : IBState) (msg : String) :
    (∀ n, searchOrderId msg.data = some n →
      (next_valid_id_handler st msg).st.nextOrderId = n)
    ∧ (searchOrderId msg.data = none →
      (next_valid_id_handler st msg).st.nextOrderId = st.nextOrderId)
    ∧ (managed_account_handler st msg).st.nextOrderId = st.nextOrderId
    ∧ (error_handler st msg).st.nextOrderId = st.nextOrderId
    ∧ (my_account_handler st msg).st.nextOrderId = st.nextOrderId := by
  refine ⟨?_, ?_, ?_, ?_, ?_⟩
  · intro n h
    simp [next_valid_id_handler, h]
  · intro h
    simp [next_valid_id_handler, h]
  · cases h : searchAccountsList msg.data <;> simp [managed_account_handler, h]
  · cases herr : errSearch msg with
    | none => simp [error_handler, herr]
    | some cm =>
        obtain ⟨code, m⟩ := cm
        by_cases hcond : code = "None" ∧ pyStartsWith m "unpack requires a string" = true
        · cases hacct : st.account_id <;> simp [error_handler, herr, hcond, hacct]
        · simp [error_handler, herr, hcond]
  · simp [my_account_handler]

/-- Closed instance of `nextOrderId_update_spec`: `orderId=7` overwrites the
stored id with `7`; an unmatched message keeps the stored id. -/
theorem nextOrderId_update_spec_witness :
    (next_valid_id_handler gldState "orderId=7").st.nextOrderId = 7
    ∧ (next_valid_id_handler gldState "xyz").st.nextOrderId = gldState.nextOrderId :=
  ⟨(nextOrderId_update_spec gldState "orderId=7").1 7 (by decide),
    (nextOrderId_update_spec gldState "xyz").2.1 (by decide)⟩
